import Mathlib

/-!
Shallow embedding of the library GraphQL server (`src/index.js`, and its
earlier variant `src/unnamed/part_000`, whose resolvers are identical).

The MongoDB collections (users, authors, books) are modelled as lists of
documents inside a `DB` record; mongoose's fresh `_id` generation is
modelled by a `nextId` counter.  The in-process `PubSub` from
`graphql-subscriptions` has a single topic in this program (BOOK_ADDED),
so it is modelled as the list of subscriber queues for that topic: each
subscriber is the ordered list of payloads delivered to it so far, and
`publish` appends the payload to every currently registered queue.
Resolvers are state-passing functions; a thrown `GraphQLError` is an
`Except.error` paired with the state at the moment of the throw.
-/

namespace Library

/-- A GraphQL error as thrown by the resolvers:
`new GraphQLError(message, { extensions: { code } })`. -/
structure GraphQLError where
  message : String
  code : String
deriving DecidableEq, Repr

/-- A stored User document (`models/user`). -/
structure User where
  _id : Nat
  username : String
  favoriteGenre : String
deriving DecidableEq, Repr

/-- A stored Author document (`models/author`): `born` is optional. -/
structure Author where
  _id : Nat
  name : String
  born : Option Int
deriving DecidableEq, Repr

/-- A stored Book document (`models/book`): `author` is a reference to an
Author by `_id`. -/
structure Book where
  _id : Nat
  title : String
  published : Int
  author : Nat
  genres : List String
deriving DecidableEq, Repr

/-- A Book after `populate('author')`: the author reference is replaced by
the referenced Author document (or null when the reference does not
resolve, which mongoose renders as `null`). -/
structure PopulatedBook where
  _id : Nat
  title : String
  published : Int
  author : Option Author
  genres : List String
deriving DecidableEq, Repr

/-- The document store: three collections plus a fresh-id counter
standing in for mongoose ObjectId generation. -/
structure DB where
  users : List User
  authors : List Author
  books : List Book
  nextId : Nat
deriving DecidableEq, Repr

/-- The `graphql-subscriptions` PubSub, restricted to the single topic
this program uses (BOOK_ADDED).  Each element of `subscribers` is one
registered subscriber, represented by the ordered list of payloads
delivered to it so far (oldest first). -/
structure PubSub where
  subscribers : List (List PopulatedBook)
deriving DecidableEq, Repr

/-- Whole-process state: the document store and the PubSub registry. -/
structure ServerState where
  db : DB
  pubsub : PubSub
deriving DecidableEq, Repr

/-- Per-request resolver context produced by the auth middleware. -/
structure Context where
  currentUser : Option User
deriving DecidableEq, Repr

/-- Arguments of the `addBook` mutation. -/
structure AddBookArgs where
  title : String
  published : Int
  author : String
  genres : List String
deriving DecidableEq, Repr

/-- Arguments of the `editAuthor` mutation. -/
structure EditAuthorArgs where
  name : String
  setBornTo : Int
deriving DecidableEq, Repr

/-- Arguments of the `login` mutation. -/
structure LoginArgs where
  username : String
  password : String
deriving DecidableEq, Repr

/-- Arguments of the `allBooks` query; both are optional (and may be
empty strings, which JS treats as falsy). -/
structure AllBooksArgs where
  author : Option String
  genre : Option String
deriving DecidableEq, Repr

/-- The payload of a signed JWT issued by this server.  `exp` is the
standard JWT expiry claim; `jwt.sign` embeds it only when an `expiresIn`
option is passed. -/
structure TokenPayload where
  username : String
  id : Nat
  exp : Option Nat
deriving DecidableEq, Repr

/-- Signing, `jwt.sign(userForToken, JWT_SECRET)` exactly as called in `login`:
no `expiresIn` option is given, so no `exp` claim is embedded. -/
def jwtSign (username : String) (id : Nat) : TokenPayload :=
  { username := username, id := id, exp := none }

/-- Whether `jwt.verify` rejects a validly signed token at Unix time
`now` because of its expiry claim: only possible when `exp` is present. -/
def tokenExpiredAt (t : TokenPayload) (now : Nat) : Bool :=
  match t.exp with
  | some e => decide (e ≤ now)
  | none => false

/-- Lookup `Author.findOne({ name })`: first author document with that name. -/
def findAuthorByName (authors : List Author) (name : String) : Option Author :=
  authors.find? (fun a => a.name == name)

/-- Lookup of an author document by `_id` (used by `populate('author')`). -/
def findAuthorById (authors : List Author) (id : Nat) : Option Author :=
  authors.find? (fun a => a._id == id)

/-- Population, `book.populate('author')`: resolve the book's author reference
against the authors collection. -/
def populateBook (authors : List Author) (b : Book) : PopulatedBook :=
  { _id := b._id, title := b.title, published := b.published,
    author := findAuthorById authors b.author, genres := b.genres }

/-- Publication, `pubsub.publish('BOOK_ADDED', ...)` of a payload: it is
appended to every currently registered subscriber queue; with no
subscribers it is dropped. -/
def publish (payload : PopulatedBook) (ps : PubSub) : PubSub :=
  { subscribers := ps.subscribers.map (fun q => q ++ [payload]) }

/-- Subscription via `pubsub.asyncIterator('BOOK_ADDED')` (the `Subscription.bookAdded`
resolver): registers a fresh subscriber with an empty backlog and returns
its index as the handle. -/
def subscribe (ps : PubSub) : Nat × PubSub :=
  (ps.subscribers.length, { subscribers := ps.subscribers ++ [[]] })

/-- The `addBook` resolver.  Throws UNAUTHENTICATED before any write when
there is no current user; otherwise find-or-creates the author by name,
saves the new book, populates it, publishes it on BOOK_ADDED and returns
it. -/
def addBook (ctx : Context) (args : AddBookArgs) (st : ServerState) :
    (Except GraphQLError PopulatedBook) × ServerState :=
  match ctx.currentUser with
  | none => (.error { message := "not authenticated", code := "UNAUTHENTICATED" }, st)
  | some _ =>
    let authorDb : Author × DB :=
      match findAuthorByName st.db.authors args.author with
      | some a => (a, st.db)
      | none =>
        let a : Author := { _id := st.db.nextId, name := args.author, born := none }
        (a, { st.db with authors := st.db.authors ++ [a], nextId := st.db.nextId + 1 })
    let author := authorDb.1
    let db1 := authorDb.2
    let book : Book := { _id := db1.nextId, title := args.title,
                         published := args.published, author := author._id,
                         genres := args.genres }
    let db2 := { db1 with books := db1.books ++ [book], nextId := db1.nextId + 1 }
    let populatedBook := populateBook db2.authors book
    (.ok populatedBook, { db := db2, pubsub := publish populatedBook st.pubsub })

/-- Persisting `author.save()` after mutating a fetched document: the stored
document with the same `_id` is overwritten. -/
def saveAuthor (a : Author) (st : ServerState) : ServerState :=
  { st with db := { st.db with
      authors := st.db.authors.map (fun x => if x._id == a._id then a else x) } }

/-- The `editAuthor` resolver: requires a current user; returns null when
no author has the given name; otherwise overwrites `born` and saves. -/
def editAuthor (ctx : Context) (args : EditAuthorArgs) (st : ServerState) :
    (Except GraphQLError (Option Author)) × ServerState :=
  match ctx.currentUser with
  | none => (.error { message := "not authenticated", code := "UNAUTHENTICATED" }, st)
  | some _ =>
    match findAuthorByName st.db.authors args.name with
    | none => (.ok none, st)
    | some a =>
      let a' := { a with born := some args.setBornTo }
      (.ok (some a'), saveAuthor a' st)

/-- The `login` resolver: looks the user up by username, compares the
password to the hard-coded literal, throws one BAD_USER_INPUT error for
both failure cases, and otherwise signs `{ username, id }`. -/
def login (args : LoginArgs) (st : ServerState) : Except GraphQLError TokenPayload :=
  match st.db.users.find? (fun u => u.username == args.username) with
  | none => .error { message := "wrong credentials", code := "BAD_USER_INPUT" }
  | some user =>
    if args.password == "secret" then
      .ok (jwtSign user.username user._id)
    else
      .error { message := "wrong credentials", code := "BAD_USER_INPUT" }

/-- JS truthiness of an optional string argument: an absent argument and
the empty string are both falsy (`if (args.author)` in the source). -/
def jsTruthyStr : Option String → Bool
  | none => false
  | some s => !(s == "")

/-- The Mongo filter document built by `allBooks`: an optional
`author: id` equality and an optional `genres: { $in: [g] }` clause
(which on an array field means the array contains `g`); a book matches
the conjunction of the present clauses. -/
def bookMatches (authorFilter : Option Nat) (genreFilter : Option String) (b : Book) : Bool :=
  (match authorFilter with
   | none => true
   | some aid => b.author == aid) &&
  (match genreFilter with
   | none => true
   | some g => b.genres.contains g)

/-- The `allBooks` resolver: when a truthy author argument is given, the
author is resolved by name first (no match returns the empty list); a
truthy genre argument adds a genre clause; results are populated. -/
def allBooks (args : AllBooksArgs) (st : ServerState) : List PopulatedBook :=
  let genreFilter : Option String :=
    if jsTruthyStr args.genre then some (args.genre.getD "") else none
  if jsTruthyStr args.author then
    match findAuthorByName st.db.authors (args.author.getD "") with
    | none => []
    | some a =>
      (st.db.books.filter (bookMatches (some a._id) genreFilter)).map
        (populateBook st.db.authors)
  else
    (st.db.books.filter (bookMatches none genreFilter)).map
      (populateBook st.db.authors)

/-- One author as produced by the `allAuthors` aggregation after the
`$lookup` stage: the author document joined with the books whose
`author` field equals its `_id`. -/
structure AuthorJoined where
  _id : Nat
  name : String
  born : Option Int
  books : List Book
deriving DecidableEq, Repr

/-- One author in the `allAuthors` result, after `$addFields` computes
`bookCount` as `$size` of the joined array and `$project` drops it. -/
structure AuthorAgg where
  _id : Nat
  name : String
  born : Option Int
  bookCount : Nat
deriving DecidableEq, Repr

/-- The `$lookup` stage of the `allAuthors` aggregation: join each author
with the books referencing its `_id`. -/
def lookupStage (st : ServerState) : List AuthorJoined :=
  st.db.authors.map (fun a =>
    { _id := a._id, name := a.name, born := a.born,
      books := st.db.books.filter (fun b => b.author == a._id) })

/-- The `allAuthors` resolver: the aggregation pipeline
`$lookup` / `$addFields (bookCount := $size books)` / `$project (drop books)`,
recomputed from the collections at each call. -/
def allAuthors (st : ServerState) : List AuthorAgg :=
  (lookupStage st).map (fun aj =>
    { _id := aj._id, name := aj.name, born := aj.born,
      bookCount := aj.books.length })

/-- JS `s.startsWith(p)`: the characters of `p` form an initial segment
of the characters of `s` (stated on the underlying character lists so
that concrete instances evaluate by `decide`). -/
def jsStartsWith (s p : String) : Bool := p.data.isPrefixOf s.data

/-- The `expressMiddleware` context function: when an Authorization
header is present and starts with "Bearer ", verify the rest of the
header as a token (any verification error propagates) and resolve the
embedded id to the current user; in every other case resolve to no
current user without touching the verifier.  `verify` stands for
`jwt.verify(·, JWT_SECRET)` on candidate token strings. -/
def expressContext (verify : String → Except GraphQLError TokenPayload)
    (users : List User) (auth : Option String) : Except GraphQLError Context :=
  match auth with
  | some s =>
    if jsStartsWith s "Bearer " then
      match verify (s.drop 7) with
      | .error e => .error e
      | .ok tok => .ok { currentUser := users.find? (fun u => u._id == tok.id) }
    else .ok { currentUser := none }
  | none => .ok { currentUser := none }

/-- A sequence of `addBook` calls under one context, collecting the books
the successful calls return (in call order) and threading the state. -/
def runAddBooks (ctx : Context) : List AddBookArgs → ServerState → List PopulatedBook × ServerState
  | [], st => ([], st)
  | a :: rest, st =>
    match addBook ctx a st with
    | (.ok b, st') =>
      let r := runAddBooks ctx rest st'
      (b :: r.1, r.2)
    | (.error _, st') => runAddBooks ctx rest st'

/-- The Author document `addBook` inserts for a fresh name
(`new Author({ name })`: `born` unset). -/
def mkAuthor (id : Nat) (name : String) : Author :=
  { _id := id, name := name, born := none }

/-- The Book document `addBook` inserts
(`new Book({ ...args, author: author._id })`). -/
def mkBook (id : Nat) (args : AddBookArgs) (aid : Nat) : Book :=
  { _id := id, title := args.title, published := args.published,
    author := aid, genres := args.genres }

/-- All naturals in the list are pairwise distinct. -/
def distinctNats : List Nat → Bool
  | [] => true
  | x :: xs => (!(xs.contains x)) && distinctNats xs

/-- Well-formedness that MongoDB maintains for the authors collection:
document `_id`s are distinct, and the fresh-id counter is beyond every
existing author id. -/
def authorsWF (db : DB) : Bool :=
  distinctNats (db.authors.map (fun a => a._id)) &&
  db.authors.all (fun a => decide (a._id < db.nextId))

/-- A concrete user document for instantiations. -/
def aliceUser : User := { _id := 0, username := "alice", favoriteGenre := "sf" }

/-- A concrete author document for instantiations. -/
def authorA : Author := { _id := 1, name := "A", born := none }

/-- A concrete book document (by `authorA`) for instantiations. -/
def bookT : Book := { _id := 2, title := "T", published := 2000, author := 1, genres := ["x"] }

/-- A concrete server state: one user, one author, one book, and one
registered subscriber with an empty backlog. -/
def st0 : ServerState :=
  { db := { users := [aliceUser], authors := [authorA], books := [bookT], nextId := 3 },
    pubsub := { subscribers := [[]] } }

/-- Concrete `addBook` arguments citing the already existing author. -/
def args0 : AddBookArgs :=
  { title := "T2", published := 2001, author := "A", genres := ["x"] }

/-! ### Helper lemmas -/

theorem find?_id_of_mem {l : List Author} {a : Author}
    (hd : distinctNats (l.map (fun x => x._id)) = true) (ha : a ∈ l) :
    l.find? (fun x => x._id == a._id) = some a := by
  induction l with
  | nil => cases ha
  | cons x xs ih =>
    rw [List.map_cons, distinctNats, Bool.and_eq_true] at hd
    rcases List.mem_cons.mp ha with h | h
    · subst h
      exact List.find?_cons_of_pos _ (by simp)
    · have hnotmem : x._id ∉ xs.map (fun y => y._id) := by simpa using hd.1
      have hne : x._id ≠ a._id := by
        intro hc
        exact hnotmem (hc ▸ List.mem_map_of_mem (fun y => y._id) h)
      rw [List.find?_cons_of_neg _ (by simp [hne])]
      exact ih hd.2 h

theorem find?_id_fresh {l : List Author} {n : Nat} (a : Author)
    (hf : ∀ x ∈ l, x._id < n) (han : a._id = n) :
    (l ++ [a]).find? (fun x => x._id == n) = some a := by
  induction l with
  | nil =>
    simp only [List.nil_append]
    exact List.find?_cons_of_pos _ (by simp [han])
  | cons x xs ih =>
    have hlt : x._id < n := hf x (List.mem_cons_self _ _)
    rw [List.cons_append, List.find?_cons_of_neg _ (by simp [Nat.ne_of_lt hlt])]
    exact ih (fun y hy => hf y (List.mem_cons_of_mem _ hy))

theorem find?_name_append {l : List Author} (a : Author) {name : String}
    (h : l.find? (fun x => x.name == name) = none) (ha : a.name = name) :
    (l ++ [a]).find? (fun x => x.name == name) = some a := by
  rw [List.find?_append, h]
  simp [ha]

theorem addBook_found (u : User) (args : AddBookArgs) (st : ServerState) (a : Author)
    (hfind : findAuthorByName st.db.authors args.author = some a) :
    addBook { currentUser := some u } args st =
      (.ok (populateBook st.db.authors (mkBook st.db.nextId args a._id)),
       { db := { st.db with
                 books := st.db.books ++ [mkBook st.db.nextId args a._id],
                 nextId := st.db.nextId + 1 },
         pubsub := publish (populateBook st.db.authors (mkBook st.db.nextId args a._id))
           st.pubsub }) := by
  simp [addBook, hfind, mkBook]

theorem addBook_new (u : User) (args : AddBookArgs) (st : ServerState)
    (hfind : findAuthorByName st.db.authors args.author = none) :
    addBook { currentUser := some u } args st =
      (.ok (populateBook (st.db.authors ++ [mkAuthor st.db.nextId args.author])
              (mkBook (st.db.nextId + 1) args st.db.nextId)),
       { db := { users := st.db.users
                 authors := st.db.authors ++ [mkAuthor st.db.nextId args.author]
                 books := st.db.books ++ [mkBook (st.db.nextId + 1) args st.db.nextId]
                 nextId := st.db.nextId + 1 + 1 },
         pubsub := publish
           (populateBook (st.db.authors ++ [mkAuthor st.db.nextId args.author])
             (mkBook (st.db.nextId + 1) args st.db.nextId)) st.pubsub }) := by
  simp [addBook, hfind, mkBook, mkAuthor]

/-! ### Claim theorems -/

/-- C1: every `addBook` call whose context has no current user fails with
the authentication-denied error (code UNAUTHENTICATED) and leaves the
state unchanged — no Book document and no Author document is created. -/
theorem addBook_unauthenticated_no_write (args : AddBookArgs) (st : ServerState) :
    addBook { currentUser := none } args st =
      (.error { message := "not authenticated", code := "UNAUTHENTICATED" }, st) :=
  rfl

/-- C4: `login` fails with the single bad-credentials error (the same
error value in both cases, hence indistinguishable) and returns no token
when the username is unknown or the password differs from the fixed
reference value; when the user exists and the password is "secret", it
returns a signed token embedding exactly the stored user's username and
identifier. -/
theorem login_credentials (args : LoginArgs) (st : ServerState) :
    (st.db.users.find? (fun u => u.username == args.username) = none →
      login args st =
        .error { message := "wrong credentials", code := "BAD_USER_INPUT" }) ∧
    (args.password ≠ "secret" →
      login args st =
        .error { message := "wrong credentials", code := "BAD_USER_INPUT" }) ∧
    (∀ u, st.db.users.find? (fun u => u.username == args.username) = some u →
      args.password = "secret" →
      login args st = .ok { username := u.username, id := u._id, exp := none }) := by
  refine ⟨fun h => ?_, fun h => ?_, fun u hu hp => ?_⟩
  · simp [login, h]
  · cases hfind : st.db.users.find? (fun u => u.username == args.username) with
    | none => simp [login, hfind]
    | some u => simp [login, hfind, h]
  · simp [login, hu, hp, jwtSign]

/-- C4 witness: concrete successful login for the stored user. -/
theorem login_credentials_witness :
    st0.db.users.find? (fun u => u.username == "alice") = some aliceUser ∧
    login { username := "alice", password := "secret" } st0 =
      .ok { username := "alice", id := 0, exp := none } :=
  ⟨by decide,
   (login_credentials { username := "alice", password := "secret" } st0).2.2
     aliceUser (by decide) rfl⟩

/-- C10: a request whose Authorization header is present but does not
start with "Bearer " resolves to no current user, silently: the verifier
is never consulted, no error is raised, and the outcome coincides with
the no-header case. -/
theorem context_non_bearer_silent
    (verify : String → Except GraphQLError TokenPayload) (users : List User)
    (s : String) (h : jsStartsWith s "Bearer " = false) :
    expressContext verify users (some s) = .ok { currentUser := none } ∧
    expressContext verify users (some s) = expressContext verify users none := by
  constructor <;> simp [expressContext, h]

/-- C10 witness: a concrete non-Bearer header with a verifier that would
reject everything, showing the verifier is irrelevant. -/
theorem context_non_bearer_silent_witness :
    jsStartsWith "Basic xyz" "Bearer " = false ∧
    expressContext (fun _ => .error { message := "jwt malformed", code := "BAD" })
      [] (some "Basic xyz") = .ok { currentUser := none } :=
  ⟨by decide,
   (context_non_bearer_silent
     (fun _ => .error { message := "jwt malformed", code := "BAD" })
     [] "Basic xyz" (by decide)).1⟩

/-- C7: `editAuthor` without a current user fails with the
authentication-denied error and changes nothing; with a current user and
an unknown name it returns null (no error) and changes nothing; with a
matching author it overwrites that author's `born` field with
`setBornTo`, persists it (same collection size, other authors untouched,
books and users untouched), and returns the updated author. -/
theorem editAuthor_spec (u : User) (args : EditAuthorArgs) (st : ServerState) :
    (editAuthor { currentUser := none } args st =
      (.error { message := "not authenticated", code := "UNAUTHENTICATED" }, st)) ∧
    (findAuthorByName st.db.authors args.name = none →
      editAuthor { currentUser := some u } args st = (.ok none, st)) ∧
    (∀ a, findAuthorByName st.db.authors args.name = some a →
      editAuthor { currentUser := some u } args st =
        (.ok (some { a with born := some args.setBornTo }),
          saveAuthor { a with born := some args.setBornTo } st) ∧
      a.name = args.name ∧
      { a with born := some args.setBornTo } ∈
        (editAuthor { currentUser := some u } args st).2.db.authors ∧
      (∀ x ∈ st.db.authors, x._id ≠ a._id →
        x ∈ (editAuthor { currentUser := some u } args st).2.db.authors) ∧
      (editAuthor { currentUser := some u } args st).2.db.authors.length =
        st.db.authors.length ∧
      (editAuthor { currentUser := some u } args st).2.db.books = st.db.books ∧
      (editAuthor { currentUser := some u } args st).2.db.users = st.db.users) := by
  refine ⟨rfl, fun h => ?_, fun a ha => ?_⟩
  · simp [editAuthor, h]
  · have heq : editAuthor { currentUser := some u } args st =
        (.ok (some { a with born := some args.setBornTo }),
          saveAuthor { a with born := some args.setBornTo } st) := by
      simp [editAuthor, ha]
    have hname : a.name = args.name := by
      have := List.find?_some ha
      simpa using this
    refine ⟨heq, hname, ?_, ?_, ?_, ?_, ?_⟩ <;> rw [heq]
    · have hmem : a ∈ st.db.authors := List.mem_of_find?_eq_some ha
      have := List.mem_map_of_mem
        (fun x => if x._id == ({ a with born := some args.setBornTo } : Author)._id
          then { a with born := some args.setBornTo } else x) hmem
      simpa [saveAuthor] using this
    · intro x hx hne
      have := List.mem_map_of_mem
        (fun y => if y._id == ({ a with born := some args.setBornTo } : Author)._id
          then { a with born := some args.setBornTo } else y) hx
      simpa [saveAuthor, hne] using this
    · simp [saveAuthor]
    · simp [saveAuthor]
    · simp [saveAuthor]

/-- C7 witness: concrete edit of the stored author's birth year. -/
theorem editAuthor_spec_witness :
    editAuthor { currentUser := some aliceUser } { name := "A", setBornTo := 1950 } st0 =
      (.ok (some { authorA with born := some 1950 }),
        saveAuthor { authorA with born := some 1950 } st0) :=
  ((editAuthor_spec aliceUser { name := "A", setBornTo := 1950 } st0).2.2
    authorA (by decide)).1

/-- C8: every entry of the `allAuthors` result carries `bookCount` equal
to the number of stored books referencing that author's id, recomputed
from the current collections; an author referenced by no book gets 0
(the field is total, never absent); and every stored author appears with
its fields and that count. -/
theorem allAuthors_bookCount (st : ServerState) :
    ((allAuthors st).length = st.db.authors.length) ∧
    (∀ x ∈ allAuthors st,
      x.bookCount = st.db.books.countP (fun b => b.author == x._id)) ∧
    (∀ x ∈ allAuthors st, (∀ b ∈ st.db.books, b.author ≠ x._id) → x.bookCount = 0) ∧
    (∀ a ∈ st.db.authors, ∃ x ∈ allAuthors st,
      x._id = a._id ∧ x.name = a.name ∧ x.born = a.born ∧
      x.bookCount = st.db.books.countP (fun b => b.author == a._id)) := by
  refine ⟨by simp [allAuthors, lookupStage], fun x hx => ?_, fun x hx h0 => ?_,
    fun a ha => ?_⟩
  · rcases List.mem_map.mp hx with ⟨aj, haj, rfl⟩
    rcases List.mem_map.mp haj with ⟨a, _, rfl⟩
    simp [List.countP_eq_length_filter]
  · rcases List.mem_map.mp hx with ⟨aj, haj, rfl⟩
    rcases List.mem_map.mp haj with ⟨a, _, rfl⟩
    simp only [AuthorAgg.bookCount, List.length_eq_zero]
    rw [List.filter_eq_nil_iff]
    intro b hb
    simpa using h0 b hb
  · have h1 := List.mem_map_of_mem (fun a : Author =>
      ({ _id := a._id, name := a.name, born := a.born,
         books := st.db.books.filter (fun b => b.author == a._id) } : AuthorJoined)) ha
    have h2 := List.mem_map_of_mem (fun aj : AuthorJoined =>
      ({ _id := aj._id, name := aj.name, born := aj.born,
         bookCount := aj.books.length } : AuthorAgg)) h1
    refine ⟨_, h2, ?_, ?_, ?_, ?_⟩ <;>
      simp [List.countP_eq_length_filter]

/-- C8 witness: in the concrete state the single author's bookCount is
the count of books referencing it. -/
theorem allAuthors_bookCount_witness :
    ({ _id := 1, name := "A", born := none, bookCount := 1 } : AuthorAgg).bookCount =
      st0.db.books.countP (fun b => b.author == 1) :=
  (allAuthors_bookCount st0).2.1 _ (by decide)

theorem populated_resolved (authors : List Author) (books : List Book)
    (h : books.all (fun b => (findAuthorById authors b.author).isSome) = true)
    (p : Book → Bool) :
    ∀ pb ∈ (books.filter p).map (populateBook authors), pb.author.isSome = true := by
  intro pb hpb
  rcases List.mem_map.mp hpb with ⟨b, hb, rfl⟩
  have hb' : b ∈ books := List.mem_of_mem_filter hb
  have := List.all_eq_true.mp h b hb'
  simpa [populateBook] using this

/-- C5 counterexample: the claim fails for the empty-string author
argument.  In `st0` no author is named `""`, yet
`allBooks(author: "")` returns the whole book list, not the empty
sequence, because JS treats the empty string as falsy and skips the
author filter. -/
theorem allBooks_empty_author_counterexample :
    findAuthorByName st0.db.authors "" = none ∧
    allBooks { author := some "", genre := none } st0 ≠ [] := by decide

/-- C5 (amended): for a nonempty author argument naming no existing
author, `allBooks` returns the empty list (not an error); for a nonempty
genre argument the result is exactly the books whose genres contain it;
both filters combine with AND semantics; and when every stored book
references a stored author, every returned book's author is resolved.
(An empty-string author or genre argument is falsy in JS, so its filter
is skipped.) -/
theorem allBooks_filters (args : AllBooksArgs) (st : ServerState)
    (ha : ∀ s, args.author = some s → s ≠ "")
    (hg : ∀ g, args.genre = some g → g ≠ "") :
    (∀ s, args.author = some s → findAuthorByName st.db.authors s = none →
      allBooks args st = []) ∧
    (∀ g, args.author = none → args.genre = some g →
      allBooks args st =
        (st.db.books.filter (fun b => b.genres.contains g)).map
          (populateBook st.db.authors)) ∧
    (∀ s g a, args.author = some s → args.genre = some g →
      findAuthorByName st.db.authors s = some a →
      allBooks args st =
        (st.db.books.filter (fun b => b.author == a._id && b.genres.contains g)).map
          (populateBook st.db.authors)) ∧
    (∀ s a, args.author = some s → args.genre = none →
      findAuthorByName st.db.authors s = some a →
      allBooks args st =
        (st.db.books.filter (fun b => b.author == a._id)).map
          (populateBook st.db.authors)) ∧
    (st.db.books.all (fun b => (findAuthorById st.db.authors b.author).isSome) = true →
      ∀ pb ∈ allBooks args st, pb.author.isSome = true) := by
  refine ⟨fun s hs hnone => ?_, fun g h0 hgen => ?_, fun s g a hs hgen hfind => ?_,
    fun s a hs hgen hfind => ?_, fun hall pb hpb => ?_⟩
  · have hfs : (s == "") = false := by simpa using ha s hs
    simp [allBooks, hs, jsTruthyStr, hfs, hnone]
  · have hfg : (g == "") = false := by simpa using hg g hgen
    simp only [allBooks, h0, hgen, jsTruthyStr, hfg, Bool.not_false, if_true, if_false,
      Bool.false_eq_true, Option.getD_some]
    exact congrArg _ (List.filter_congr fun b _ => by simp [bookMatches])
  · have hfs : (s == "") = false := by simpa using ha s hs
    have hfg : (g == "") = false := by simpa using hg g hgen
    simp only [allBooks, hs, hgen, jsTruthyStr, hfs, hfg, Bool.not_false, if_true, if_false,
      Bool.false_eq_true, Option.getD_some, hfind]
    exact congrArg _ (List.filter_congr fun b _ => by simp [bookMatches])
  · have hfs : (s == "") = false := by simpa using ha s hs
    simp only [allBooks, hs, hgen, jsTruthyStr, hfs, Bool.not_false, if_true, if_false,
      Bool.false_eq_true, Option.getD_some, hfind]
    exact congrArg _ (List.filter_congr fun b _ => by simp [bookMatches])
  · simp only [allBooks] at hpb
    split at hpb
    · split at hpb
      · simp at hpb
      · exact populated_resolved _ _ hall _ pb hpb
    · exact populated_resolved _ _ hall _ pb hpb

/-- C5 witness: genre-only query on the concrete state. -/
theorem allBooks_filters_witness :
    allBooks { author := none, genre := some "x" } st0 =
      (st0.db.books.filter (fun b => b.genres.contains "x")).map
        (populateBook st0.db.authors) :=
  ((allBooks_filters { author := none, genre := some "x" } st0
    (by simp) (by intro g h; cases h; decide)).2.1) "x" rfl rfl

/-- C2: an `addBook` call with a current user succeeds, creates exactly
one new Book (length grows by one, old books kept), creates at most one
new Author — none when an author with exactly the given name already
exists, one otherwise — and returns a book whose author field is the
full Author object bearing the given name, not a bare identifier. -/
theorem addBook_creates (u : User) (args : AddBookArgs) (st : ServerState)
    (hWF : authorsWF st.db = true) :
    ∃ pb st' a,
      addBook { currentUser := some u } args st = (.ok pb, st') ∧
      st'.db.books.length = st.db.books.length + 1 ∧
      (∀ b ∈ st.db.books, b ∈ st'.db.books) ∧
      ((findAuthorByName st.db.authors args.author).isSome = true →
        st'.db.authors = st.db.authors) ∧
      (findAuthorByName st.db.authors args.author = none →
        st'.db.authors.length = st.db.authors.length + 1) ∧
      pb.author = some a ∧ a.name = args.author ∧ a ∈ st'.db.authors ∧
      pb.title = args.title ∧ pb.published = args.published ∧
      pb.genres = args.genres := by
  rw [authorsWF, Bool.and_eq_true] at hWF
  cases hfind : findAuthorByName st.db.authors args.author with
  | some a =>
    have hmem : a ∈ st.db.authors := List.mem_of_find?_eq_some hfind
    have hname : a.name = args.author := by simpa using List.find?_some hfind
    have hpop : findAuthorById st.db.authors a._id = some a :=
      find?_id_of_mem hWF.1 hmem
    simp only [addBook, hfind]
    refine ⟨_, _, a, rfl, by simp, fun b hb => List.mem_append_left _ hb,
      fun _ => rfl, fun hc => by simp at hc, ?_, hname, hmem, rfl, rfl, rfl⟩
    simp [populateBook, hpop]
  | none =>
    have hf : ∀ x ∈ st.db.authors, x._id < st.db.nextId := fun x hx =>
      of_decide_eq_true (List.all_eq_true.mp hWF.2 x hx)
    have hpop : (st.db.authors ++
        [({ _id := st.db.nextId, name := args.author, born := none } : Author)]).find?
          (fun x => x._id == st.db.nextId) = some
          ({ _id := st.db.nextId, name := args.author, born := none } : Author) :=
      find?_id_fresh _ hf rfl
    simp only [addBook, hfind]
    refine ⟨_, _, { _id := st.db.nextId, name := args.author, born := none },
      rfl, by simp, fun b hb => List.mem_append_left _ hb,
      fun hc => by simp at hc, fun _ => by simp, ?_, rfl,
      List.mem_append_right _ (List.mem_singleton.mpr rfl), rfl, rfl, rfl⟩
    simp only [populateBook, findAuthorById]
    rw [hpop]

/-- C2 witness: adding a book citing the already stored author in the
concrete state. -/
theorem addBook_creates_witness :
    ∃ pb st' a,
      addBook { currentUser := some aliceUser } args0 st0 = (.ok pb, st') ∧
      st'.db.books.length = st0.db.books.length + 1 ∧
      (∀ b ∈ st0.db.books, b ∈ st'.db.books) ∧
      ((findAuthorByName st0.db.authors args0.author).isSome = true →
        st'.db.authors = st0.db.authors) ∧
      (findAuthorByName st0.db.authors args0.author = none →
        st'.db.authors.length = st0.db.authors.length + 1) ∧
      pb.author = some a ∧ a.name = args0.author ∧ a ∈ st'.db.authors ∧
      pb.title = args0.title ∧ pb.published = args0.published ∧
      pb.genres = args0.genres :=
  addBook_creates aliceUser args0 st0 (by decide)

/-- C6: two sequential successful `addBook` calls citing the same author
name create exactly one Author record in total when the name was absent
(and none when it already existed): the first call accounts for the only
possible insertion, the second call leaves the authors collection
unchanged, and the book it saves references an author with the cited
name that is already present after the first call. -/
theorem addBook_author_idempotent (u : User) (a1 a2 : AddBookArgs)
    (st : ServerState) (h : a2.author = a1.author) :
    ∃ pb1 st1 pb2 st2,
      addBook { currentUser := some u } a1 st = (.ok pb1, st1) ∧
      addBook { currentUser := some u } a2 st1 = (.ok pb2, st2) ∧
      st2.db.authors = st1.db.authors ∧
      (st1.db.authors.length =
        if (findAuthorByName st.db.authors a1.author).isSome
        then st.db.authors.length else st.db.authors.length + 1) ∧
      ∃ bk2, st2.db.books = st1.db.books ++ [bk2] ∧
        ∃ a, a ∈ st1.db.authors ∧ a._id = bk2.author ∧ a.name = a1.author := by
  cases hfind : findAuthorByName st.db.authors a1.author with
  | some a =>
    have hname : a.name = a1.author := by simpa using List.find?_some hfind
    have hmem : a ∈ st.db.authors := List.mem_of_find?_eq_some hfind
    have heq1 := addBook_found u a1 st a hfind
    refine ⟨_, _, _, _, heq1, addBook_found u a2 _ a ?_, rfl, by simp [hfind],
      mkBook _ a2 a._id, rfl, a, hmem, rfl, hname⟩
    show findAuthorByName st.db.authors a2.author = some a
    rw [h]; exact hfind
  | none =>
    have heq1 := addBook_new u a1 st hfind
    have hfind2 : findAuthorByName
        (st.db.authors ++ [mkAuthor st.db.nextId a1.author]) a2.author =
        some (mkAuthor st.db.nextId a1.author) := by
      rw [h]; exact find?_name_append _ hfind rfl
    refine ⟨_, _, _, _, heq1, addBook_found u a2 _ _ hfind2, rfl, by simp [hfind],
      mkBook _ a2 (mkAuthor st.db.nextId a1.author)._id, rfl,
      mkAuthor st.db.nextId a1.author,
      List.mem_append_right _ (List.mem_singleton.mpr rfl), rfl, rfl⟩

/-- C6 witness: the same author name cited twice in the concrete state. -/
theorem addBook_author_idempotent_witness :
    ∃ pb1 st1 pb2 st2,
      addBook { currentUser := some aliceUser } args0 st0 = (.ok pb1, st1) ∧
      addBook { currentUser := some aliceUser } args0 st1 = (.ok pb2, st2) ∧
      st2.db.authors = st1.db.authors ∧
      (st1.db.authors.length =
        if (findAuthorByName st0.db.authors args0.author).isSome
        then st0.db.authors.length else st0.db.authors.length + 1) ∧
      ∃ bk2, st2.db.books = st1.db.books ++ [bk2] ∧
        ∃ a, a ∈ st1.db.authors ∧ a._id = bk2.author ∧ a.name = args0.author :=
  addBook_author_idempotent aliceUser args0 args0 st0 rfl

theorem addBook_ok_shape (u : User) (a : AddBookArgs) (st : ServerState) :
    ∃ pb db', addBook { currentUser := some u } a st =
      (.ok pb, { db := db', pubsub := publish pb st.pubsub }) := by
  cases hfind : findAuthorByName st.db.authors a.author with
  | some x => exact ⟨_, _, addBook_found u a st x hfind⟩
  | none => exact ⟨_, _, addBook_new u a st hfind⟩

theorem publish_getElem (b : PopulatedBook) (ps : PubSub) (i : Nat) :
    (publish b ps).subscribers[i]? = ps.subscribers[i]?.map (fun q => q ++ [b]) := by
  simp [publish]

theorem subscribe_fresh (ps : PubSub) :
    (subscribe ps).2.subscribers[(subscribe ps).1]? = some ([] : List PopulatedBook) := by
  simp [subscribe]

theorem runAddBooks_queue (u : User) (l : List AddBookArgs) :
    ∀ (st : ServerState) (i : Nat) (q : List PopulatedBook),
      st.pubsub.subscribers[i]? = some q →
      (runAddBooks { currentUser := some u } l st).2.pubsub.subscribers[i]? =
        some (q ++ (runAddBooks { currentUser := some u } l st).1) ∧
      (runAddBooks { currentUser := some u } l st).1.length = l.length := by
  induction l with
  | nil => intro st i q h; simpa [runAddBooks] using h
  | cons a rest ih =>
    intro st i q h
    obtain ⟨pb, db', heq⟩ := addBook_ok_shape u a st
    have hq' : (publish pb st.pubsub).subscribers[i]? = some (q ++ [pb]) := by
      rw [publish_getElem, h]; rfl
    have hrun : runAddBooks { currentUser := some u } (a :: rest) st =
        (pb :: (runAddBooks { currentUser := some u } rest
            { db := db', pubsub := publish pb st.pubsub }).1,
          (runAddBooks { currentUser := some u } rest
            { db := db', pubsub := publish pb st.pubsub }).2) := by
      simp only [runAddBooks, heq]
    rcases ih { db := db', pubsub := publish pb st.pubsub } i (q ++ [pb]) hq' with ⟨h1, h2⟩
    rw [hrun]
    exact ⟨by rw [h1]; simp, by simp [h2]⟩

/-- C3: a subscriber registered (at index `i`, with backlog `q`) before a
sequence of successful `addBook` calls receives exactly one notification
per call, appended in call order, and each notification is the very book
the corresponding mutation returned; a subscriber that registers after
the calls starts with an empty backlog, receiving nothing for them. -/
theorem bookAdded_delivery (u : User) (l : List AddBookArgs) (st : ServerState)
    (i : Nat) (q : List PopulatedBook)
    (h : st.pubsub.subscribers[i]? = some q) :
    (runAddBooks { currentUser := some u } l st).2.pubsub.subscribers[i]? =
      some (q ++ (runAddBooks { currentUser := some u } l st).1) ∧
    (runAddBooks { currentUser := some u } l st).1.length = l.length ∧
    (subscribe (runAddBooks { currentUser := some u } l st).2.pubsub).2.subscribers[
      (subscribe (runAddBooks { currentUser := some u } l st).2.pubsub).1]? =
      some ([] : List PopulatedBook) := by
  rcases runAddBooks_queue u l st i q h with ⟨h1, h2⟩
  exact ⟨h1, h2, subscribe_fresh _⟩

/-- C3 witness: the concrete state's lone subscriber receives exactly the
book returned by one concrete `addBook` call; a later subscriber starts
empty. -/
theorem bookAdded_delivery_witness :
    (runAddBooks { currentUser := some aliceUser } [args0] st0).2.pubsub.subscribers[0]? =
      some ([] ++ (runAddBooks { currentUser := some aliceUser } [args0] st0).1) ∧
    (runAddBooks { currentUser := some aliceUser } [args0] st0).1.length = [args0].length ∧
    (subscribe (runAddBooks { currentUser := some aliceUser } [args0] st0).2.pubsub).2.subscribers[
      (subscribe (runAddBooks { currentUser := some aliceUser } [args0] st0).2.pubsub).1]? =
      some ([] : List PopulatedBook) :=
  bookAdded_delivery aliceUser [args0] st0 0 [] rfl

/-- C9 counterexample: the token issued by a concrete successful login
carries no expiry claim (`jwt.sign` is called without `expiresIn`), so
verification never fails for it on grounds of expiry — here checked at a
far-future concrete time. -/
theorem login_no_expiry_counterexample :
    login { username := "alice", password := "secret" } st0 =
      .ok { username := "alice", id := 0, exp := none } ∧
    ({ username := "alice", id := 0, exp := none } : TokenPayload).exp = none ∧
    tokenExpiredAt { username := "alice", id := 0, exp := none } 9999999999 = false :=
  ⟨rfl, rfl, by decide⟩

/-- C9 (amended): every token issued by `login` embeds the user's
username and identifier but no expiry claim; it is not time-bound, and
verification of the token never fails because of passed time. -/
theorem login_token_not_time_bound (args : LoginArgs) (st : ServerState)
    (u : User) (now : Nat)
    (hu : st.db.users.find? (fun x => x.username == args.username) = some u)
    (hp : args.password = "secret") :
    ∃ t, login args st = .ok t ∧ t.username = u.username ∧ t.id = u._id ∧
      t.exp = none ∧ tokenExpiredAt t now = false := by
  refine ⟨jwtSign u.username u._id, ?_, rfl, rfl, rfl, rfl⟩
  simp [login, hu, hp]

/-- C9 witness: concrete login, checked at a concrete later time. -/
theorem login_token_not_time_bound_witness :
    ∃ t, login { username := "alice", password := "secret" } st0 = .ok t ∧
      t.username = aliceUser.username ∧ t.id = aliceUser._id ∧
      t.exp = none ∧ tokenExpiredAt t 9999999999 = false :=
  login_token_not_time_bound { username := "alice", password := "secret" } st0
    aliceUser 9999999999 (by decide) rfl

end Library
